import Mathlib

/-!
Verification of the daylight segmentation and chart rendering engine of
tides.py against its design specification.

The embedding below translates the arithmetic of tides.py into Lean:
Python floats are modelled as rationals (reals for the moon terminator,
whose formulas use sqrt and cos), Python int() truncation toward zero is
modelled by pyInt, Python floor division by Int.fdiv, and the drawing
calls are modelled as explicit lists of draw operations.
-/

/-- Color palette of the target display, resolved by every drawing call
(inky_display.WHITE, BLACK, RED, YELLOW, ORANGE, BLUE). -/
inductive PaletteColor where
  | white
  | black
  | red
  | yellow
  | orange
  | blue
deriving DecidableEq, Repr

/-- Python int() applied to an exact rational: truncation toward zero,
computed as the truncating division of numerator by denominator. -/
def pyInt (q : ℚ) : ℤ := q.num.tdiv q.den

/-- The x mapping used for sun-event x coordinates (tides.py lines 224-231)
and hour labels (line 255): int(graph_x + (progress * graph_width)). -/
def xOfSun (gx : ℤ) (p : ℚ) (gw : ℤ) : ℤ := pyInt ((gx : ℚ) + p * (gw : ℚ))

/-- Modelled from the spec: the Coordinate Mapper contract
xOf(progress, geometry) = originX + round(progress * width). -/
def specXOf (gx : ℤ) (p : ℚ) (gw : ℤ) : ℤ := gx + round (p * (gw : ℚ))

/-- The tide-sample x mapping (tides.py line 272):
int(graph_x + (i * graph_width) // (len(predictions) - 1)).
Python // is floor division, Int.fdiv. -/
def tideX (gx gw : ℤ) (n : ℕ) (i : ℕ) : ℤ := gx + Int.fdiv ((i : ℤ) * gw) ((n : ℤ) - 1)

/-- The tide-sample y mapping (tides.py line 274):
int(graph_y + graph_height - int(((value - min_tide) / tide_range) * graph_height)). -/
def yOfTide (gy gh : ℤ) (minT range v : ℚ) : ℤ :=
  gy + gh - pyInt ((v - minT) / range * (gh : ℚ))

/-- Modelled from the spec: the Coordinate Mapper contract
yOf(value, domainMin, domainMax, geometry) =
originY + height - round(((value - domainMin)/(domainMax - domainMin)) * height). -/
def specYOf (gy gh : ℤ) (v minT maxT : ℚ) : ℤ :=
  gy + gh - round ((v - minT) / (maxT - minT) * (gh : ℚ))

/-- Python min of a nonempty list (0 on the empty list, never used there). -/
def listMin : List ℚ → ℚ
  | [] => 0
  | x :: xs => xs.foldl min x

/-- Python max of a nonempty list (0 on the empty list, never used there). -/
def listMax : List ℚ → ℚ
  | [] => 0
  | x :: xs => xs.foldl max x

/-- min_tide = min(values) - 0.5 (tides.py line 200). -/
def min_tide (values : List ℚ) : ℚ := listMin values - 1/2

/-- max_tide = max(values) (tides.py line 201). -/
def max_tide (values : List ℚ) : ℚ := listMax values

/-- tide_range = max_tide - min_tide (tides.py line 202). -/
def tide_range (values : List ℚ) : ℚ := max_tide values - min_tide values

/-- A tide prediction sample: UTC timestamp in seconds (parse_time_str of
the "t" field with tz_offset 0) and height in feet (the "v" field). -/
structure TideSample where
  t : ℤ
  v : ℚ
deriving DecidableEq, Repr

/-- Default sample used as the out-of-bounds value for list indexing. -/
def dfltPred : TideSample := ⟨0, 0⟩

/-- Minute-of-hour of a UTC timestamp viewed in the local timezone of
whole-hour offset tzoff (datetime.fromtimestamp(t, local_tz).minute). -/
def minuteOf (tzoff t : ℤ) : ℤ := (Int.fdiv (t + tzoff * 3600) 60) % 60

/-- Day progress of a UTC timestamp: (pred_time - local_midnight)
.total_seconds() / (24 * 3600), with midnight the UTC timestamp of local
midnight (tides.py lines 282, 299). -/
def progressOf (midnight t : ℤ) : ℚ := ((t - midnight : ℤ) : ℚ) / 86400

/-- Render context: chart geometry, local midnight timestamp, timezone
offset in hours, and the eight sun-event day-progress values computed at
tides.py lines 214-221. -/
structure Ctx where
  gx : ℤ
  gw : ℤ
  gy : ℤ
  gh : ℤ
  midnight : ℤ
  tzoff : ℤ
  dawnP : ℚ
  sunriseP : ℚ
  goldenStartP : ℚ
  goldenEndP : ℚ
  egsP : ℚ
  egeP : ℚ
  sunsetP : ℚ
  duskP : ℚ

/-- One vertical tide line as drawn by draw.line((x, graph_y + graph_height,
x, y), fill=line_color, width=line_width) at tides.py line 288. -/
structure TLine where
  x : ℤ
  y0 : ℤ
  y1 : ℤ
  w : ℤ
  c : PaletteColor
deriving DecidableEq, Repr

/-- Default line used as the out-of-bounds value for list indexing. -/
def dfltLine : TLine := ⟨0, 0, 0, 0, PaletteColor.black⟩

/-- The tide plotting loop (tides.py lines 271-290): for each sample index,
the vertical line from the chart bottom edge to the mapped tide level, 2px
wide on full hours else 1px, white at night else black. -/
def plotTides (ctx : Ctx) (minT range : ℚ) (preds : List TideSample) : List TLine :=
  (List.range preds.length).map fun i =>
    ⟨tideX ctx.gx ctx.gw preds.length i,
     ctx.gy + ctx.gh,
     yOfTide ctx.gy ctx.gh minT range (preds.getD i dfltPred).v,
     if minuteOf ctx.tzoff (preds.getD i dfltPred).t = 0 then 2 else 1,
     if progressOf ctx.midnight (preds.getD i dfltPred).t ≤ ctx.dawnP ∨
        ctx.duskP ≤ progressOf ctx.midnight (preds.getD i dfltPred).t
     then PaletteColor.white else PaletteColor.black⟩

/-- A sample is a peak: strictly higher than both immediate neighbors. -/
def isPeak (preds : List TideSample) (i : ℕ) : Prop :=
  (preds.getD (i - 1) dfltPred).v < (preds.getD i dfltPred).v ∧
  (preds.getD (i + 1) dfltPred).v < (preds.getD i dfltPred).v

/-- A sample is a trough: strictly lower than both immediate neighbors. -/
def isTrough (preds : List TideSample) (i : ℕ) : Prop :=
  (preds.getD i dfltPred).v < (preds.getD (i - 1) dfltPred).v ∧
  (preds.getD i dfltPred).v < (preds.getD (i + 1) dfltPred).v

/-- The extremum labeling guard of tides.py lines 293-302: interior index,
strictly above or strictly below both neighbors, and day progress within
the inclusive dawn-dusk window. -/
def labelDrawn (ctx : Ctx) (preds : List TideSample) (i : ℕ) : Bool :=
  if 0 < i ∧ i < preds.length - 1 then
    if ((preds.getD (i - 1) dfltPred).v < (preds.getD i dfltPred).v ∧
        (preds.getD (i + 1) dfltPred).v < (preds.getD i dfltPred).v) ∨
       ((preds.getD i dfltPred).v < (preds.getD (i - 1) dfltPred).v ∧
        (preds.getD i dfltPred).v < (preds.getD (i + 1) dfltPred).v) then
      decide (ctx.dawnP ≤ progressOf ctx.midnight (preds.getD i dfltPred).t ∧
              progressOf ctx.midnight (preds.getD i dfltPred).t ≤ ctx.duskP)
    else false
  else false

/-- Indices of the samples whose extremum labels are drawn. -/
def extremumLabelIndices (ctx : Ctx) (preds : List TideSample) : List ℕ :=
  (List.range preds.length).filter (labelDrawn ctx preds)

/-- A filled background rectangle spanning the chart height, with its
inclusive pixel x interval (PIL rectangle endpoints are inclusive). -/
structure BandRect where
  lo : ℤ
  hi : ℤ
  color : PaletteColor
deriving DecidableEq, Repr

/-- The x coordinates of the painted sun-event boundaries: chart left edge,
x_dawn, x_sunrise, x_golden_end, x_evening_golden_start, x_sunset, x_dusk,
chart right edge. -/
structure SunBounds where
  gx : ℤ
  dawn : ℤ
  sunrise : ℤ
  goldenEnd : ℤ
  egs : ℤ
  sunset : ℤ
  dusk : ℤ
  gxe : ℤ
deriving DecidableEq, Repr

/-- The background band rectangles in the order tides.py paints them
(lines 233-247): both blue night bands, both orange twilight bands, both
yellow golden-hour bands, then the white midday band. -/
def codeBandRects (b : SunBounds) : List BandRect :=
  [⟨b.gx, b.dawn, PaletteColor.blue⟩,
   ⟨b.dusk, b.gxe, PaletteColor.blue⟩,
   ⟨b.dawn, b.sunrise, PaletteColor.orange⟩,
   ⟨b.sunset, b.dusk, PaletteColor.orange⟩,
   ⟨b.sunrise, b.goldenEnd, PaletteColor.yellow⟩,
   ⟨b.egs, b.sunset, PaletteColor.yellow⟩,
   ⟨b.goldenEnd, b.egs, PaletteColor.white⟩]

/-- Modelled from the spec: the same seven band rectangles listed in the
left-to-right boundary order the spec claims the paint order follows. -/
def specBandRects (b : SunBounds) : List BandRect :=
  [⟨b.gx, b.dawn, PaletteColor.blue⟩,
   ⟨b.dawn, b.sunrise, PaletteColor.orange⟩,
   ⟨b.sunrise, b.goldenEnd, PaletteColor.yellow⟩,
   ⟨b.goldenEnd, b.egs, PaletteColor.white⟩,
   ⟨b.egs, b.sunset, PaletteColor.yellow⟩,
   ⟨b.sunset, b.dusk, PaletteColor.orange⟩,
   ⟨b.dusk, b.gxe, PaletteColor.blue⟩]

/-- Final color of column x after painting the rectangles in list order
over background bg: the last rectangle containing x wins. -/
def paintAt (rects : List BandRect) (x : ℤ) (bg : PaletteColor) : PaletteColor :=
  rects.foldl (fun c r => if r.lo ≤ x ∧ x ≤ r.hi then r.color else c) bg

/-- Modelled from the spec: the color each column should get under the
left-to-right half-open boundary pairs of the painting contract. -/
def specBandColor (b : SunBounds) (x : ℤ) : PaletteColor :=
  if b.gx ≤ x ∧ x < b.dawn then PaletteColor.blue
  else if b.dawn ≤ x ∧ x < b.sunrise then PaletteColor.orange
  else if b.sunrise ≤ x ∧ x < b.goldenEnd then PaletteColor.yellow
  else if b.goldenEnd ≤ x ∧ x < b.egs then PaletteColor.white
  else if b.egs ≤ x ∧ x < b.sunset then PaletteColor.yellow
  else if b.sunset ≤ x ∧ x < b.dusk then PaletteColor.orange
  else if b.dusk ≤ x ∧ x < b.gxe then PaletteColor.blue
  else PaletteColor.white

/-- The painted sun-event boundary x coordinates of a render context
(tides.py lines 224-231), via the int() truncating x mapping. -/
def sunXs (ctx : Ctx) : SunBounds :=
  ⟨ctx.gx,
   xOfSun ctx.gx ctx.dawnP ctx.gw,
   xOfSun ctx.gx ctx.sunriseP ctx.gw,
   xOfSun ctx.gx ctx.goldenEndP ctx.gw,
   xOfSun ctx.gx ctx.egsP ctx.gw,
   xOfSun ctx.gx ctx.sunsetP ctx.gw,
   xOfSun ctx.gx ctx.duskP ctx.gw,
   ctx.gx + ctx.gw⟩

/-- One drawing operation of the tide rendering step. Text operations keep
the anchor position and color; glyph rasterization is font-dependent and
external, so a text operation is modelled as touching its anchor pixel. -/
inductive DrawOp where
  | rect (lo hi : ℤ) (c : PaletteColor)
  | vline (x ybot ytop w : ℤ) (c : PaletteColor)
  | text (x y : ℤ) (c : PaletteColor)
deriving DecidableEq, Repr

/-- The seven background band draw.rectangle calls (tides.py 233-247). -/
def bandOps (ctx : Ctx) : List DrawOp :=
  (codeBandRects (sunXs ctx)).map fun r => DrawOp.rect r.lo r.hi r.color

/-- The 23 hour labels (tides.py 253-268): hours 1..23 at progress
hour/24, below the chart, white at night else black. -/
def hourLabelOps (ctx : Ctx) : List DrawOp :=
  (List.range 23).map fun k =>
    DrawOp.text (xOfSun ctx.gx (((k + 1 : ℕ) : ℚ) / 24) ctx.gw)
      (ctx.gy + ctx.gh + 16)
      (if (((k + 1 : ℕ) : ℚ) / 24) ≤ ctx.dawnP ∨ ctx.duskP ≤ (((k + 1 : ℕ) : ℚ) / 24)
       then PaletteColor.white else PaletteColor.black)

/-- The vertical tide line draw.line calls of the plotting loop. -/
def tideLineOps (ctx : Ctx) (minT range : ℚ) (preds : List TideSample) : List DrawOp :=
  (plotTides ctx minT range preds).map fun L => DrawOp.vline L.x L.y0 L.y1 L.w L.c

/-- The extremum label draw.text calls (tides.py 306-309): a height text
15px and a time text 35px above the sample point, both black. In the
source these are interleaved into the plotting loop; the operations are
collected here after the lines, which leaves the multiset unchanged. -/
def extremumLabelOps (ctx : Ctx) (minT range : ℚ) (preds : List TideSample) : List DrawOp :=
  (extremumLabelIndices ctx preds).flatMap fun i =>
    [DrawOp.text (tideX ctx.gx ctx.gw preds.length i)
       (yOfTide ctx.gy ctx.gh minT range (preds.getD i dfltPred).v - 15) PaletteColor.black,
     DrawOp.text (tideX ctx.gx ctx.gw preds.length i)
       (yOfTide ctx.gy ctx.gh minT range (preds.getD i dfltPred).v - 35) PaletteColor.black]

/-- The day filter of tides.py lines 193-195: keep a prediction iff
local_midnight <= parse_time_str(t, 0) < local_midnight + 24h. -/
def dayFilter (midnight : ℤ) (preds : List TideSample) : List TideSample :=
  preds.filter fun p => decide (midnight ≤ p.t ∧ p.t < midnight + 86400)

/-- Outcome of the tide data fetch (tides.py lines 173-178 and the guard
at line 190): the request raised, the parsed body had no predictions key,
or it yielded a list of predictions. -/
inductive TideData where
  | fetchFailed
  | noPredictions
  | predictions (preds : List TideSample)

/-- The whole tide rendering step (tides.py lines 190-309): nothing is
drawn unless the fetch succeeded, a predictions key was present, and at
least 2 samples survive the day filter; otherwise bands, hour labels,
tide lines and extremum labels are emitted. -/
def tideStepOps (ctx : Ctx) (td : TideData) : List DrawOp :=
  match td with
  | TideData.fetchFailed => []
  | TideData.noPredictions => []
  | TideData.predictions preds =>
    if 2 ≤ (dayFilter ctx.midnight preds).length then
      bandOps ctx ++ hourLabelOps ctx ++
      tideLineOps ctx (min_tide ((dayFilter ctx.midnight preds).map TideSample.v))
        (tide_range ((dayFilter ctx.midnight preds).map TideSample.v))
        (dayFilter ctx.midnight preds) ++
      extremumLabelOps ctx (min_tide ((dayFilter ctx.midnight preds).map TideSample.v))
        (tide_range ((dayFilter ctx.midnight preds).map TideSample.v))
        (dayFilter ctx.midnight preds)
    else []

/-- Pixel semantics of one draw operation over the canvas. -/
def applyOp (canvas : ℤ × ℤ → PaletteColor) (op : DrawOp) : ℤ × ℤ → PaletteColor :=
  fun pt =>
    match op with
    | DrawOp.rect lo hi c => if lo ≤ pt.1 ∧ pt.1 ≤ hi then c else canvas pt
    | DrawOp.vline x yb yt w c =>
        if (x ≤ pt.1 ∧ pt.1 < x + w) ∧ min yb yt ≤ pt.2 ∧ pt.2 ≤ max yb yt then c
        else canvas pt
    | DrawOp.text x y c => if pt.1 = x ∧ pt.2 = y then c else canvas pt

/-- The canvas after the tide step: the all-white background painted at
tides.py lines 185-187, then the operations applied in order. -/
def renderCanvas (ops : List DrawOp) : ℤ × ℤ → PaletteColor :=
  ops.foldl applyOp fun _ => PaletteColor.white

/-- The terminator points appended for one vertical offset i of the moon
disc (tides.py lines 139-152): on the waxing branch the curve point
radius + (-width * cos(phase_angle)) paired with the left edge 0, on the
waning branch radius + width * cos(phase_angle) paired with the right
edge radius * 2, otherwise nothing. -/
noncomputable def terminatorPair (phase : ℝ) (radius : ℕ) (i : ℤ) : Option (ℝ × ℝ) :=
  if 0 ≤ phase ∧ phase < 1/2 then
    some ((radius : ℝ) + -(Real.sqrt ((radius : ℝ) ^ 2 - (i : ℝ) ^ 2) *
            Real.cos (phase * (2 * Real.pi))), 0)
  else if 1/2 ≤ phase ∧ phase ≤ 1 then
    some ((radius : ℝ) + Real.sqrt ((radius : ℝ) ^ 2 - (i : ℝ) ^ 2) *
            Real.cos (phase * (2 * Real.pi)), (radius : ℝ) * 2)
  else none

/-- The two points the loop body appends at vertical offset i. -/
noncomputable def moonRowPts (phase : ℝ) (radius : ℕ) (i : ℤ) : List (ℝ × ℝ) :=
  match terminatorPair phase radius i with
  | some (a, b) => [(a, (radius : ℝ) + (i : ℝ)), (b, (radius : ℝ) + (i : ℝ))]
  | none => []

/-- All terminator points collected over i in range(-radius, radius + 1). -/
noncomputable def moonPoints (phase : ℝ) (radius : ℕ) : List (ℝ × ℝ) :=
  ((List.range (2 * radius + 1)).map fun k => ((k : ℤ) - (radius : ℤ))).flatMap
    (moonRowPts phase radius)

/-- The dark polygon is filled only when the point list is nonempty
(tides.py lines 158-159). -/
noncomputable def moonDarkPolygon (phase : ℝ) (radius : ℕ) : Option (List (ℝ × ℝ)) :=
  match moonPoints phase radius with
  | [] => none
  | ps => some ps

/-- The dark region of the moon disc within one pixel row: the filled
polygon covers, in the row at vertical offset i, the x interval between
the terminator curve point and the edge point of that row. -/
noncomputable def moonDarkRow (phase : ℝ) (radius : ℕ) (i : ℤ) : Set ℝ :=
  match terminatorPair phase radius i with
  | some (a, b) => Set.uIcc a b
  | none => ∅

/-- normalized_phase = moon_phase_today / 28.0 (tides.py line 313). -/
noncomputable def normalized_phase (p : ℝ) : ℝ := p / 28

/-- Concrete boundary columns 0..7 for the band-order counterexample. -/
def sampleBounds : SunBounds := ⟨0, 1, 2, 3, 4, 5, 6, 7⟩

/-- Concrete strictly increasing boundary columns for witnesses. -/
def orderedBounds : SunBounds := ⟨0, 2, 4, 6, 8, 10, 12, 14⟩

/-- Concrete render context: 10px wide, 10px tall chart at the origin,
UTC, dawn at a quarter and dusk at three quarters of the day. -/
def ctx4 : Ctx := ⟨0, 10, 0, 10, 0, 0, 1/4, 0, 0, 0, 0, 0, 0, 3/4⟩

/-- Four evenly spaced samples, 15 minutes apart from local midnight. -/
def preds4 : List TideSample := [⟨0, 0⟩, ⟨900, 1⟩, ⟨1800, 2⟩, ⟨2700, 3⟩]

/-- Three samples with a peak in the middle. -/
def preds3 : List TideSample := [⟨0, 1⟩, ⟨900, 2⟩, ⟨1800, 1⟩]

/-- pyInt agrees with the floor on nonnegative rationals. -/
theorem pyInt_eq_floor {q : ℚ} (h : 0 ≤ q) : pyInt q = ⌊q⌋ := by
  unfold pyInt
  rw [Int.tdiv_eq_ediv (Rat.num_nonneg.mpr h) (by positivity), Rat.floor_def]

/-- pyInt agrees with the ceiling on nonpositive rationals. -/
theorem pyInt_eq_ceil {q : ℚ} (h : q ≤ 0) : pyInt q = ⌈q⌉ := by
  have h1 : pyInt (-q) = ⌊-q⌋ := pyInt_eq_floor (by linarith)
  have h2 : pyInt (-q) = -pyInt q := by
    unfold pyInt
    rw [Rat.neg_num, Rat.neg_den, Int.neg_tdiv]
  rw [← neg_neg (pyInt q), ← h2, h1, Int.floor_neg, neg_neg]

/-- pyInt of an integer is that integer. -/
theorem pyInt_intCast (n : ℤ) : pyInt (n : ℚ) = n := by
  rcases le_or_lt 0 ((n : ℚ)) with h | h
  · rw [pyInt_eq_floor h, Int.floor_intCast]
  · rw [pyInt_eq_ceil h.le, Int.ceil_intCast]

/-- Truncation toward zero is monotone. -/
theorem pyInt_mono {a b : ℚ} (h : a ≤ b) : pyInt a ≤ pyInt b := by
  rcases le_or_lt 0 a with ha | ha
  · rw [pyInt_eq_floor ha, pyInt_eq_floor (ha.trans h)]
    exact Int.floor_mono h
  · rcases le_or_lt 0 b with hb | hb
    · rw [pyInt_eq_ceil ha.le, pyInt_eq_floor hb]
      have h1 : ⌈a⌉ ≤ 0 := Int.ceil_le.mpr (by exact_mod_cast ha.le)
      have h2 : (0 : ℤ) ≤ ⌊b⌋ := Int.floor_nonneg.mpr hb
      omega
    · rw [pyInt_eq_ceil ha.le, pyInt_eq_ceil hb.le]
      exact Int.ceil_mono h

/-- Folding max is monotone in the initial accumulator. -/
theorem foldl_max_mono (xs : List ℚ) : ∀ a b : ℚ, a ≤ b → xs.foldl max a ≤ xs.foldl max b := by
  induction xs with
  | nil => intro a b h; exact h
  | cons y ys ih => intro a b h; exact ih (max a y) (max b y) (max_le_max h (le_refl y))

/-- A min fold never exceeds the matching max fold. -/
theorem foldl_min_le_foldl_max (xs : List ℚ) : ∀ a : ℚ, xs.foldl min a ≤ xs.foldl max a := by
  induction xs with
  | nil => intro a; exact le_refl a
  | cons y ys ih =>
    intro a
    calc ys.foldl min (min a y) ≤ ys.foldl max (min a y) := ih (min a y)
    _ ≤ ys.foldl max (max a y) := foldl_max_mono ys (min a y) (max a y) min_le_max

/-- Indexing a map over a range below the bound yields the function value. -/
theorem getD_range_map {α : Type} (n i : ℕ) (f : ℕ → α) (d : α) (h : i < n) :
    ((List.range n).map f).getD i d = f i := by
  rw [List.getD_eq_getElem?_getD, List.getElem?_map, List.getElem?_range h]
  rfl

/-- Indexing the reverse of a list at an in-bounds position reads the
mirrored position of the original list. -/
theorem getD_reverse_sample (l : List TideSample) (j : ℕ) (h : j < l.length) (d : TideSample) :
    l.reverse.getD j d = l.getD (l.length - 1 - j) d := by
  rw [List.getD_eq_getElem?_getD, List.getD_eq_getElem?_getD, List.getElem?_reverse h]

/-- A flatMap over rows that all produce nothing is empty. -/
theorem flatMap_nil_of_rows {α β : Type} (l : List α) (f : α → List β)
    (h : ∀ a ∈ l, f a = []) : l.flatMap f = [] := by
  induction l with
  | nil => rfl
  | cons x xs ih => simp_all

/-- Both terminator branch guards fail for a phase outside the unit
interval, so the row contributes no points. -/
theorem terminatorPair_eq_none (phase : ℝ) (radius : ℕ) (i : ℤ)
    (h : phase < 0 ∨ 1 < phase) : terminatorPair phase radius i = none := by
  unfold terminatorPair
  rw [if_neg, if_neg]
  · rintro ⟨h1, h2⟩
    rcases h with h | h <;> linarith
  · rintro ⟨h1, h2⟩
    rcases h with h | h <;> linarith

/-- C1: the claim states phase 0 and phase 1 produce a dark polygon
covering the full circle and phase 0.5 an empty one. Evaluating the
terminator construction at radius 1 shows the code does the opposite:
at phase 0 and phase 1 the dark region of the center row degenerates to a
single boundary point of the disc (the disc renders fully light), while
at phase 0.5 it covers the entire center row of the disc, the interval
from 0 to 2 (the disc renders fully dark). -/
theorem C1_moon_phase_rendering_inverted :
    moonDarkRow 0 1 0 = {(0 : ℝ)} ∧
    moonDarkRow 1 1 0 = {(2 : ℝ)} ∧
    moonDarkRow (1/2) 1 0 = Set.Icc (0 : ℝ) 2 := by
  have h0 : terminatorPair 0 1 0 = some (0, 0) := by
    unfold terminatorPair
    rw [if_pos (by norm_num)]
    norm_num [Real.sqrt_one, Real.cos_zero]
  have h1 : terminatorPair 1 1 0 = some (2, 2) := by
    unfold terminatorPair
    rw [if_neg (by norm_num), if_pos (by norm_num)]
    norm_num [Real.sqrt_one, Real.cos_two_pi]
  have h2 : terminatorPair (1/2) 1 0 = some (0, 2) := by
    unfold terminatorPair
    rw [if_neg (by norm_num), if_pos (by norm_num)]
    have hp : (1/2 : ℝ) * (2 * Real.pi) = Real.pi := by ring
    rw [hp, Real.cos_pi]
    norm_num [Real.sqrt_one]
  refine ⟨?_, ?_, ?_⟩
  · unfold moonDarkRow
    rw [h0]
    exact Set.uIcc_self
  · unfold moonDarkRow
    rw [h1]
    exact Set.uIcc_self
  · unfold moonDarkRow
    rw [h2]
    exact Set.uIcc_of_le (by norm_num)

/-- C10: for any phase strictly below 0 or strictly above 1 both branch
guards of the terminator loop fail, so no points are appended and no dark
polygon is drawn; and the caller's normalization by 28 yields such a
phase whenever the source phase exceeds 28. -/
theorem C10_out_of_range_phase_skips_terminator :
    (∀ (phase : ℝ) (radius : ℕ), phase < 0 ∨ 1 < phase →
       moonPoints phase radius = [] ∧ moonDarkPolygon phase radius = none) ∧
    (∀ p : ℝ, 28 < p → 1 < normalized_phase p) := by
  constructor
  · intro phase radius h
    have hpts : moonPoints phase radius = [] := by
      unfold moonPoints
      apply flatMap_nil_of_rows
      intro a _
      unfold moonRowPts
      rw [terminatorPair_eq_none phase radius a h]
    refine ⟨hpts, ?_⟩
    unfold moonDarkPolygon
    rw [hpts]
  · intro p hp
    unfold normalized_phase
    rw [lt_div_iff₀ (by norm_num : (0:ℝ) < 28)]
    linarith

/-- Witness for C10 at phase 2 (above 1), radius 1, and source phase 30. -/
theorem C10_witness :
    ((2 : ℝ) < 0 ∨ 1 < (2 : ℝ)) ∧
    moonPoints 2 1 = [] ∧ moonDarkPolygon 2 1 = none ∧
    1 < normalized_phase 30 :=
  ⟨Or.inr (by norm_num),
   (C10_out_of_range_phase_skips_terminator.1 2 1 (Or.inr (by norm_num))).1,
   (C10_out_of_range_phase_skips_terminator.1 2 1 (Or.inr (by norm_num))).2,
   C10_out_of_range_phase_skips_terminator.2 30 (by norm_num)⟩

/-- C7: for a nonempty series, the scaling domain has
tide_range = (max - min) + 0.5, at least one half, hence never zero: the
per-sample division is never a division by zero. -/
theorem C7_tide_range_positive (values : List ℚ) (h : values ≠ []) :
    1/2 ≤ tide_range values ∧ tide_range values ≠ 0 := by
  cases values with
  | nil => exact absurd rfl h
  | cons x xs =>
    have hmm : listMin (x :: xs) ≤ listMax (x :: xs) := by
      unfold listMin listMax
      exact foldl_min_le_foldl_max xs x
    have hr : 1/2 ≤ tide_range (x :: xs) := by
      unfold tide_range max_tide min_tide
      linarith
    refine ⟨hr, ?_⟩
    intro hc
    rw [hc] at hr
    norm_num at hr

/-- Witness for C7 on the one-sample series of height 2. -/
theorem C7_witness :
    ([(2 : ℚ)] ≠ []) ∧ 1/2 ≤ tide_range [(2 : ℚ)] ∧ tide_range [(2 : ℚ)] ≠ 0 :=
  ⟨by decide,
   (C7_tide_range_positive [(2 : ℚ)] (by decide)).1,
   (C7_tide_range_positive [(2 : ℚ)] (by decide)).2⟩

/-- C8: the progress-to-x mapping is monotone non-decreasing on the unit
interval for a nonnegative chart width, maps progress 0 to originX and
progress 1 to originX + width. -/
theorem C8_xOf_monotone_endpoints :
    (∀ (gx gw : ℤ) (p q : ℚ), 0 ≤ gw → 0 ≤ p → q ≤ 1 → p ≤ q →
       xOfSun gx p gw ≤ xOfSun gx q gw) ∧
    (∀ gx gw : ℤ, xOfSun gx 0 gw = gx ∧ xOfSun gx 1 gw = gx + gw) := by
  constructor
  · intro gx gw p q hgw hp hq hpq
    unfold xOfSun
    apply pyInt_mono
    have hgw2 : (0 : ℚ) ≤ (gw : ℚ) := by exact_mod_cast hgw
    have := mul_le_mul_of_nonneg_right hpq hgw2
    linarith
  · intro gx gw
    constructor
    · unfold xOfSun
      rw [zero_mul, add_zero, pyInt_intCast]
    · unfold xOfSun
      rw [one_mul, (by push_cast; ring : (gx : ℚ) + (gw : ℚ) = ((gx + gw : ℤ) : ℚ)),
        pyInt_intCast]

/-- Witness for C8 on a 10px chart and endpoints of a 7px chart at x 5. -/
theorem C8_witness :
    (0 : ℤ) ≤ 10 ∧ (0 : ℚ) ≤ 1/4 ∧ (3/4 : ℚ) ≤ 1 ∧ (1/4 : ℚ) ≤ 3/4 ∧
    xOfSun 0 (1/4) 10 ≤ xOfSun 0 (3/4) 10 ∧
    xOfSun 5 0 7 = 5 ∧ xOfSun 5 1 7 = 5 + 7 :=
  ⟨by norm_num, by norm_num, by norm_num, by norm_num,
   C8_xOf_monotone_endpoints.1 0 10 (1/4) (3/4) (by norm_num) (by norm_num)
     (by norm_num) (by norm_num),
   (C8_xOf_monotone_endpoints.2 5 7).1,
   (C8_xOf_monotone_endpoints.2 5 7).2⟩

/-- C3: counterexample to the round-based mapper contract. The code's
int() truncation gives x 2 at progress 0.27 on a 10px chart whereas
round gives 3; the floor-division sample x gives 6 at index 2 of 4
whereas round gives 7; and the code's y gives 8 where round gives 7. -/
theorem C3_round_counterexample :
    xOfSun 0 (27/100) 10 = 2 ∧ specXOf 0 (27/100) 10 = 3 ∧
    tideX 0 10 4 2 = 6 ∧ specXOf 0 (2/3) 10 = 7 ∧
    yOfTide 0 10 0 1 (27/100) = 8 ∧ specYOf 0 10 (27/100) 0 1 = 7 := by
  refine ⟨?_, ?_, by decide, ?_, ?_, ?_⟩
  · unfold xOfSun
    rw [pyInt_eq_floor (by norm_num)]
    norm_num
  · norm_num [specXOf, round_eq]
  · norm_num [specXOf, round_eq]
  · unfold yOfTide
    rw [pyInt_eq_floor (by norm_num)]
    norm_num
  · norm_num [specYOf, round_eq]

/-- C3 amended: on the nonnegative domain actually used, the coordinate
mapper truncates rather than rounds: x = originX + floor(progress * width)
and y = originY + height - floor(((value - domainMin) / range) * height). -/
theorem C3_mapper_truncates :
    (∀ (gx gw : ℤ) (p : ℚ), 0 ≤ gx → 0 ≤ gw → 0 ≤ p →
       xOfSun gx p gw = gx + ⌊p * (gw : ℚ)⌋) ∧
    (∀ (gy gh : ℤ) (minT range v : ℚ), 0 ≤ gh → minT ≤ v → 0 < range →
       yOfTide gy gh minT range v = gy + gh - ⌊(v - minT) / range * (gh : ℚ)⌋) := by
  constructor
  · intro gx gw p hgx hgw hp
    have hgx2 : (0 : ℚ) ≤ (gx : ℚ) := by exact_mod_cast hgx
    have hgw2 : (0 : ℚ) ≤ (gw : ℚ) := by exact_mod_cast hgw
    have hnn : (0 : ℚ) ≤ (gx : ℚ) + p * (gw : ℚ) := by
      have := mul_nonneg hp hgw2
      linarith
    unfold xOfSun
    rw [pyInt_eq_floor hnn, Int.floor_int_add]
  · intro gy gh minT range v hgh hv hr
    have hgh2 : (0 : ℚ) ≤ (gh : ℚ) := by exact_mod_cast hgh
    have hnn : (0 : ℚ) ≤ (v - minT) / range * (gh : ℚ) :=
      mul_nonneg (div_nonneg (by linarith) hr.le) hgh2
    unfold yOfTide
    rw [pyInt_eq_floor hnn]

/-- Witness for C3 at progress 0.27 on a 10px chart and the matching y. -/
theorem C3_witness :
    (0 : ℤ) ≤ 0 ∧ (0 : ℤ) ≤ 10 ∧ (0 : ℚ) ≤ 27/100 ∧
    xOfSun 0 (27/100) 10 = 0 + ⌊(27/100 : ℚ) * ((10 : ℤ) : ℚ)⌋ ∧
    yOfTide 0 10 0 1 (27/100) = 0 + 10 - ⌊((27/100 : ℚ) - 0) / 1 * ((10 : ℤ) : ℚ)⌋ :=
  ⟨by norm_num, by norm_num, by norm_num,
   C3_mapper_truncates.1 0 10 (27/100) (by norm_num) (by norm_num) (by norm_num),
   C3_mapper_truncates.2 0 10 0 1 (27/100) (by norm_num) (by norm_num) (by norm_num)⟩

/-- C2: counterexample. With boundary columns 0..7 the code's paint list
is not the left-to-right list, and the overlap is observable: at the
evening-golden-start column (x = 4) the claimed half-open assignment is
yellow, but the code paints the white midday rectangle after the yellow
one and the column ends white. -/
theorem C2_band_order_counterexample :
    codeBandRects sampleBounds ≠ specBandRects sampleBounds ∧
    paintAt (codeBandRects sampleBounds) 4 PaletteColor.white = PaletteColor.white ∧
    specBandColor sampleBounds 4 = PaletteColor.yellow := by
  refine ⟨by decide, by decide, by decide⟩

set_option maxHeartbeats 1600000 in
/-- C2 amended: the code paints the same seven boundary-pair rectangles
but grouped by color (blue, blue, orange, orange, yellow, yellow, white)
rather than left to right, and consecutive rectangles do overlap in their
shared boundary column; away from the boundary columns the painted color
agrees with the left-to-right half-open band assignment. -/
theorem C2_band_painting_amended (b : SunBounds) (x : ℤ)
    (hord : b.gx ≤ b.dawn ∧ b.dawn ≤ b.sunrise ∧ b.sunrise ≤ b.goldenEnd ∧
            b.goldenEnd ≤ b.egs ∧ b.egs ≤ b.sunset ∧ b.sunset ≤ b.dusk ∧ b.dusk ≤ b.gxe)
    (hx : x ≠ b.gx ∧ x ≠ b.dawn ∧ x ≠ b.sunrise ∧ x ≠ b.goldenEnd ∧
          x ≠ b.egs ∧ x ≠ b.sunset ∧ x ≠ b.dusk ∧ x ≠ b.gxe) :
    paintAt (codeBandRects b) x PaletteColor.white = specBandColor b x ∧
    (∀ r, r ∈ codeBandRects b ↔ r ∈ specBandRects b) := by
  obtain ⟨h1, h2, h3, h4, h5, h6, h7⟩ := hord
  obtain ⟨e1, e2, e3, e4, e5, e6, e7, e8⟩ := hx
  constructor
  · obtain ⟨gx, dawn, sunrise, goldenEnd, egs, sunset, dusk, gxe⟩ := b
    simp only [paintAt, codeBandRects, specBandColor, List.foldl_cons, List.foldl_nil] at *
    split_ifs <;> first | rfl | (exfalso; omega)
  · intro r
    simp only [codeBandRects, specBandRects, List.mem_cons, List.not_mem_nil, or_false]
    tauto

/-- Witness for C2 with strictly increasing boundary columns and the
interior column x = 5 inside the morning golden hour. -/
theorem C2_band_painting_witness :
    (orderedBounds.gx ≤ orderedBounds.dawn ∧ orderedBounds.dawn ≤ orderedBounds.sunrise ∧
     orderedBounds.sunrise ≤ orderedBounds.goldenEnd ∧
     orderedBounds.goldenEnd ≤ orderedBounds.egs ∧ orderedBounds.egs ≤ orderedBounds.sunset ∧
     orderedBounds.sunset ≤ orderedBounds.dusk ∧ orderedBounds.dusk ≤ orderedBounds.gxe) ∧
    ((5 : ℤ) ≠ orderedBounds.gx ∧ (5 : ℤ) ≠ orderedBounds.dawn ∧
     (5 : ℤ) ≠ orderedBounds.sunrise ∧ (5 : ℤ) ≠ orderedBounds.goldenEnd ∧
     (5 : ℤ) ≠ orderedBounds.egs ∧ (5 : ℤ) ≠ orderedBounds.sunset ∧
     (5 : ℤ) ≠ orderedBounds.dusk ∧ (5 : ℤ) ≠ orderedBounds.gxe) ∧
    paintAt (codeBandRects orderedBounds) 5 PaletteColor.white =
      specBandColor orderedBounds 5 ∧
    specBandColor orderedBounds 5 = PaletteColor.yellow :=
  ⟨by decide, by decide,
   (C2_band_painting_amended orderedBounds 5 (by decide) (by decide)).1,
   by decide⟩

/-- C4: counterexample to the round-based x placement. On a 10px chart
with 4 samples, the line for sample 2 is drawn at x = 6 by the code's
floor division, while xOf(2/3) under the spec's round-based mapper is 7. -/
theorem C4_x_spacing_counterexample :
    ((plotTides ctx4 0 1 preds4).getD 2 dfltLine).x = 6 ∧ specXOf 0 (2/3) 10 = 7 := by
  constructor
  · unfold plotTides
    rw [getD_range_map _ _ _ _ (by decide)]
    decide
  · norm_num [specXOf, round_eq]

/-- C4 amended: sample i of n is rendered as a vertical line at
x = originX + (i * width) // (n - 1) (floor division, index-based
spacing), from the chart bottom edge to the sample's mapped y, with width
2 exactly when the sample's local minute-of-hour is 0 (else width 1), and
colored white exactly when its progress is at or before dawn or at or
after dusk (else black). -/
theorem C4_tide_line_rendering (ctx : Ctx) (minT range : ℚ) (preds : List TideSample)
    (i : ℕ) (hn : 2 ≤ preds.length) (hi : i < preds.length) :
    (plotTides ctx minT range preds).length = preds.length ∧
    ((plotTides ctx minT range preds).getD i dfltLine).x = tideX ctx.gx ctx.gw preds.length i ∧
    ((plotTides ctx minT range preds).getD i dfltLine).y0 = ctx.gy + ctx.gh ∧
    ((plotTides ctx minT range preds).getD i dfltLine).y1 =
      yOfTide ctx.gy ctx.gh minT range (preds.getD i dfltPred).v ∧
    (((plotTides ctx minT range preds).getD i dfltLine).w = 2 ↔
      minuteOf ctx.tzoff (preds.getD i dfltPred).t = 0) ∧
    (((plotTides ctx minT range preds).getD i dfltLine).w = 1 ↔
      ¬minuteOf ctx.tzoff (preds.getD i dfltPred).t = 0) ∧
    (((plotTides ctx minT range preds).getD i dfltLine).c = PaletteColor.white ↔
      (progressOf ctx.midnight (preds.getD i dfltPred).t ≤ ctx.dawnP ∨
       ctx.duskP ≤ progressOf ctx.midnight (preds.getD i dfltPred).t)) ∧
    (((plotTides ctx minT range preds).getD i dfltLine).c = PaletteColor.black ↔
      ¬(progressOf ctx.midnight (preds.getD i dfltPred).t ≤ ctx.dawnP ∨
        ctx.duskP ≤ progressOf ctx.midnight (preds.getD i dfltPred).t)) := by
  have key : (plotTides ctx minT range preds).getD i dfltLine =
      ⟨tideX ctx.gx ctx.gw preds.length i,
       ctx.gy + ctx.gh,
       yOfTide ctx.gy ctx.gh minT range (preds.getD i dfltPred).v,
       if minuteOf ctx.tzoff (preds.getD i dfltPred).t = 0 then 2 else 1,
       if progressOf ctx.midnight (preds.getD i dfltPred).t ≤ ctx.dawnP ∨
          ctx.duskP ≤ progressOf ctx.midnight (preds.getD i dfltPred).t
       then PaletteColor.white else PaletteColor.black⟩ := by
    unfold plotTides
    exact getD_range_map preds.length i _ dfltLine hi
  have hx2 : ((plotTides ctx minT range preds).getD i dfltLine).x =
      tideX ctx.gx ctx.gw preds.length i := by rw [key]
  have hy0 : ((plotTides ctx minT range preds).getD i dfltLine).y0 = ctx.gy + ctx.gh := by
    rw [key]
  have hy1 : ((plotTides ctx minT range preds).getD i dfltLine).y1 =
      yOfTide ctx.gy ctx.gh minT range (preds.getD i dfltPred).v := by rw [key]
  have hw : ((plotTides ctx minT range preds).getD i dfltLine).w =
      (if minuteOf ctx.tzoff (preds.getD i dfltPred).t = 0 then 2 else 1) := by rw [key]
  have hcol : ((plotTides ctx minT range preds).getD i dfltLine).c =
      (if progressOf ctx.midnight (preds.getD i dfltPred).t ≤ ctx.dawnP ∨
          ctx.duskP ≤ progressOf ctx.midnight (preds.getD i dfltPred).t
       then PaletteColor.white else PaletteColor.black) := by rw [key]
  refine ⟨by simp [plotTides], hx2, hy0, hy1, ?_, ?_, ?_, ?_⟩
  · rw [hw]
    by_cases hm : minuteOf ctx.tzoff (preds.getD i dfltPred).t = 0
    · rw [if_pos hm]
      exact iff_of_true rfl hm
    · rw [if_neg hm]
      exact iff_of_false (by decide) hm
  · rw [hw]
    by_cases hm : minuteOf ctx.tzoff (preds.getD i dfltPred).t = 0
    · rw [if_pos hm]
      exact iff_of_false (by decide) (not_not_intro hm)
    · rw [if_neg hm]
      exact iff_of_true rfl hm
  · rw [hcol]
    by_cases hc : progressOf ctx.midnight (preds.getD i dfltPred).t ≤ ctx.dawnP ∨
      ctx.duskP ≤ progressOf ctx.midnight (preds.getD i dfltPred).t
    · rw [if_pos hc]
      exact iff_of_true rfl hc
    · rw [if_neg hc]
      exact iff_of_false (by decide) hc
  · rw [hcol]
    by_cases hc : progressOf ctx.midnight (preds.getD i dfltPred).t ≤ ctx.dawnP ∨
      ctx.duskP ≤ progressOf ctx.midnight (preds.getD i dfltPred).t
    · rw [if_pos hc]
      exact iff_of_false (by decide) (not_not_intro hc)
    · rw [if_neg hc]
      exact iff_of_true rfl hc

/-- Witness for C4 at sample 0 of the four concrete 15-minute samples:
its timestamp is on the hour, so its line is 2px wide. -/
theorem C4_witness :
    2 ≤ preds4.length ∧ 0 < preds4.length ∧
    ((plotTides ctx4 0 1 preds4).getD 0 dfltLine).x = tideX ctx4.gx ctx4.gw preds4.length 0 ∧
    (((plotTides ctx4 0 1 preds4).getD 0 dfltLine).w = 2 ↔
      minuteOf ctx4.tzoff (preds4.getD 0 dfltPred).t = 0) ∧
    minuteOf ctx4.tzoff (preds4.getD 0 dfltPred).t = 0 :=
  ⟨by decide, by decide,
   (C4_tide_line_rendering ctx4 0 1 preds4 0 (by decide) (by decide)).2.1,
   (C4_tide_line_rendering ctx4 0 1 preds4 0 (by decide) (by decide)).2.2.2.2.1,
   by decide⟩

/-- C5: a label is drawn for sample i exactly when i is interior, the
height is a strict local peak or trough, and the sample's day progress
lies in the inclusive dawn-dusk window. -/
theorem C5_extrema_labeling (ctx : Ctx) (preds : List TideSample) (i : ℕ) :
    i ∈ extremumLabelIndices ctx preds ↔
      (0 < i ∧ i + 1 < preds.length ∧ (isPeak preds i ∨ isTrough preds i) ∧
       ctx.dawnP ≤ progressOf ctx.midnight (preds.getD i dfltPred).t ∧
       progressOf ctx.midnight (preds.getD i dfltPred).t ≤ ctx.duskP) := by
  unfold extremumLabelIndices
  rw [List.mem_filter, List.mem_range]
  unfold labelDrawn isPeak isTrough
  constructor
  · rintro ⟨hlen, hb⟩
    split_ifs at hb with hc1 hc2
    · have hd := of_decide_eq_true hb
      exact ⟨hc1.1, by omega, hc2, hd.1, hd.2⟩
  · rintro ⟨h0, h1, hex, hd1, hd2⟩
    refine ⟨by omega, ?_⟩
    rw [if_pos ⟨h0, by omega⟩, if_pos hex]
    exact decide_eq_true ⟨hd1, hd2⟩

/-- C6: when the fetch failed, the body had no predictions key, or fewer
than 2 samples survive the day filter, the tide step emits no drawing
operation at all and every pixel keeps the white background. -/
theorem C6_degraded_fetch_skips_tide_step (ctx : Ctx) (td : TideData)
    (h : td = TideData.fetchFailed ∨ td = TideData.noPredictions ∨
         ∃ preds, td = TideData.predictions preds ∧
           (dayFilter ctx.midnight preds).length < 2) :
    tideStepOps ctx td = [] ∧
    ∀ pt : ℤ × ℤ, renderCanvas (tideStepOps ctx td) pt = PaletteColor.white := by
  have hops : tideStepOps ctx td = [] := by
    rcases h with rfl | rfl | ⟨preds, rfl, hlen⟩
    · rfl
    · rfl
    · simp only [tideStepOps]
      rw [if_neg (by omega)]
  refine ⟨hops, ?_⟩
  intro pt
  rw [hops]
  rfl

/-- Witness for C6 on a failed fetch with the concrete context. -/
theorem C6_witness :
    tideStepOps ctx4 TideData.fetchFailed = [] ∧
    renderCanvas (tideStepOps ctx4 TideData.fetchFailed) (3, 3) = PaletteColor.white :=
  ⟨(C6_degraded_fetch_skips_tide_step ctx4 TideData.fetchFailed (Or.inl rfl)).1,
   (C6_degraded_fetch_skips_tide_step ctx4 TideData.fetchFailed (Or.inl rfl)).2 (3, 3)⟩

/-- C9: reversing the series flags exactly the mirrored index, which holds
the same sample, as an extremum, with peaks staying peaks and troughs
staying troughs. -/
theorem C9_extrema_reversal (preds : List TideSample) (i : ℕ)
    (h0 : 0 < i) (h1 : i + 1 < preds.length) :
    (isPeak preds.reverse (preds.length - 1 - i) ↔ isPeak preds i) ∧
    (isTrough preds.reverse (preds.length - 1 - i) ↔ isTrough preds i) ∧
    preds.reverse.getD (preds.length - 1 - i) dfltPred = preds.getD i dfltPred := by
  have e1 := getD_reverse_sample preds (preds.length - 1 - i) (by omega) dfltPred
  have e2 := getD_reverse_sample preds (preds.length - 1 - i - 1) (by omega) dfltPred
  have e3 := getD_reverse_sample preds (preds.length - 1 - i + 1) (by omega) dfltPred
  have n1 : preds.length - 1 - (preds.length - 1 - i) = i := by omega
  have n2 : preds.length - 1 - (preds.length - 1 - i - 1) = i + 1 := by omega
  have n3 : preds.length - 1 - (preds.length - 1 - i + 1) = i - 1 := by omega
  rw [n1] at e1
  rw [n2] at e2
  rw [n3] at e3
  unfold isPeak isTrough
  rw [e1, e2, e3]
  exact ⟨and_comm, and_comm, rfl⟩

/-- Witness for C9 on the three concrete samples with the middle peak. -/
theorem C9_witness :
    (0 : ℕ) < 1 ∧ 1 + 1 < preds3.length ∧
    ((isPeak preds3.reverse (preds3.length - 1 - 1) ↔ isPeak preds3 1) ∧
     (isTrough preds3.reverse (preds3.length - 1 - 1) ↔ isTrough preds3 1) ∧
     preds3.reverse.getD (preds3.length - 1 - 1) dfltPred = preds3.getD 1 dfltPred) :=
  ⟨by decide, by decide, C9_extrema_reversal preds3 1 (by decide) (by decide)⟩
